import Mathlib

/-!
Verification of the yangparse scanner (src/lexing.rs) and statement-tree
builder (src/parsing.rs) against their natural-language specification.

The Rust code is shallowly embedded: the source buffer (a Rust Vec of chars)
becomes a List Char, Rust String values become List Char, indices and byte
lengths become Nat, and fallible functions return Except.  The scanner loop
and the parser loop are modelled with an explicit fuel argument; the fuel
supplied by the wrappers (input length + 1) always suffices because every
loop iteration advances the cursor (resp. consumes a token).  Running out of
fuel, like the out-of-bounds panic in the Rust loop, is modelled by the
distinguished error value YpError.overrun.
-/

namespace Yangparse

/-- Token kinds.  The first eight constructors are the TokenType enum of
src/lexing.rs; WhiteSpace and LineBreak are the two extra variants that the
tree builder in src/parsing.rs additionally matches on (its lexer revision
emits them; the scanner embedded here never produces them, it skips
whitespace instead). -/
inductive TokenType where
  | String
  | Date
  | Number
  | Comment
  | OpenCurlyBrace
  | ClosingCurlyBrace
  | SemiColon
  | Other
  | WhiteSpace
  | LineBreak
  deriving DecidableEq, Repr

/-- Token of src/lexing.rs: kind, inclusive span (start, end) and raw text. -/
structure Token where
  token_type : TokenType
  span : Nat × Nat
  text : List Char
  deriving DecidableEq, Repr

/-- Errors.  The Rust code reports errors as Strings; each constructor here
stands for exactly one format! site in the source, carrying the same data.
overrun models the panic at the top of the scan loop (cursor beyond the
buffer) and, in the fuel-based embedding, the unreachable out-of-fuel case. -/
inductive YpError where
  | unterminatedString (line col : Nat)
  | unterminatedComment (line col : Nat)
  | failedToParse (cursor : Nat)
  | overrun
  | unexpectedToken (t : Token)
  | expectedValueNotSemicolon
  | expectedSemicolonOrBlock (t : Token)
  | unexpectedEndOfInput
  deriving DecidableEq, Repr

/-- UTF-8 byte size of a list of chars: models Rust String::len ( a byte
count) for a string holding these chars. -/
def utf8Len : List Char → Nat
  | [] => 0
  | c :: rest => c.utf8Size + utf8Len rest

/-- TextPosition::from_buffer_index of src/lexing.rs, as a (line, col) pair:
1-based position of the given char index, counting line feeds before it. -/
def textPositionGo : List Char → Nat → Nat → Nat → Nat × Nat
  | _, 0, line, col => (line, col)
  | [], _ + 1, line, col => (line, col)
  | c :: rest, i + 1, line, col =>
    if c = '\n' then textPositionGo rest i (line + 1) 1
    else textPositionGo rest i line (col + 1)

/-- Wrapper with the initial line and column of the Rust method. -/
def from_buffer_index (buffer : List Char) (index : Nat) : Nat × Nat :=
  textPositionGo buffer index 1 1

/-- is_delimiter of src/lexing.rs. -/
def is_delimiter (c : Char) : Bool :=
  [' ', '\t', '\r', '\n', ';', '{', '}'].contains c

/-- read_whitespace of src/lexing.rs, applied to the buffer suffix that
starts at the cursor: counts leading spaces and tabs, None when zero. -/
def read_whitespace (l : List Char) : Option Nat :=
  let count := (l.takeWhile fun c => c = ' ' || c = '\t').length
  if 0 < count then some count else none

/-- read_line_break of src/lexing.rs on the buffer suffix: a line feed is one
char, carriage return followed by line feed is two, anything else is none
( a lone carriage return in particular). -/
def read_line_break (l : List Char) : Option Nat :=
  match l with
  | [] => none
  | first :: rest =>
    if first = '\n' then some 1
    else if first = '\r' ∧ rest.head? = some '\n' then some 2
    else none

/-- Loop body of read_string in src/lexing.rs: consumes chars until the
closing quote_char not directly preceded by a backslash, accumulating every
char read; running out of input is the unterminated-string error (reported
by the caller with the position of the opening quote). -/
def rsLoop : List Char → Char → Bool → List Char → Except Unit (List Char)
  | [], _, _, _ => .error ()
  | c :: rest, quote_char, prev_is_backslash, acc =>
    if c = quote_char ∧ prev_is_backslash = false then .ok (acc ++ [c])
    else rsLoop rest quote_char (c == '\\') (acc ++ [c])

/-- read_string of src/lexing.rs on the buffer suffix.  The scanner only
calls it with the cursor in bounds; the empty case is unreachable there. -/
def read_string (l : List Char) : Except Unit (Option (List Char)) :=
  match l with
  | [] => .ok none
  | quote_char :: rest =>
    if quote_char = '"' ∨ quote_char = '\'' then
      match rsLoop rest quote_char false [quote_char] with
      | .ok s => .ok (some s)
      | .error e => .error e
    else .ok none

/-- Loop of read_single_line_comment: number of chars after the two slashes
up to (excluding) the next line break or the end of the buffer. -/
def slcRun : List Char → Nat
  | [] => 0
  | c :: rest =>
    if (read_line_break (c :: rest)).isSome then 0 else slcRun rest + 1

/-- read_single_line_comment of src/lexing.rs on the buffer suffix. -/
def read_single_line_comment (l : List Char) : Option (List Char) :=
  if l.head? = some '/' ∧ l.tail.head? = some '/' then
    some (l.take (2 + slcRun (l.drop 2)))
  else none

/-- Loop of read_block_comment: chars scanned after the opening two until
the first star-slash; reaching the end of the buffer first is the
unterminated-comment error. -/
def bcRun : List Char → Except Unit Nat
  | [] => .error ()
  | c :: rest =>
    if c = '*' ∧ rest.head? = some '/' then .ok 0
    else match bcRun rest with
      | .ok n => .ok (n + 1)
      | .error e => .error e

/-- read_block_comment of src/lexing.rs on the buffer suffix; the token text
length is 4 plus the loop count, exactly as the source computes it. -/
def read_block_comment (l : List Char) : Except Unit (Option (List Char)) :=
  if l.head? = some '/' ∧ l.tail.head? = some '*' then
    match bcRun (l.drop 2) with
    | .ok extra => .ok (some (l.take (4 + extra)))
    | .error e => .error e
  else .ok none

/-- read_date of src/lexing.rs on the buffer suffix: a ten char chunk shaped
dddd-dd-dd.  Rust char::is_numeric is modelled by Char.isDigit (they agree
on all ASCII input, which is all the digits the date shape and the claims
exercise). -/
def read_date (l : List Char) : Option (List Char) :=
  match l.take 10 with
  | [c0, c1, c2, c3, c4, c5, c6, c7, c8, c9] =>
    if c0.isDigit && c1.isDigit && c2.isDigit && c3.isDigit
        && (c4 == '-') && c5.isDigit && c6.isDigit && (c7 == '-')
        && c8.isDigit && c9.isDigit then
      some [c0, c1, c2, c3, c4, c5, c6, c7, c8, c9]
    else none
  | _ => none

/-- read_other of src/lexing.rs on the buffer suffix: the run of chars up to
the next delimiter; None when the run is empty (source: string.len() > 0,
a byte count, hence utf8Len here). -/
def read_other (l : List Char) : Option (List Char) :=
  let string := l.takeWhile fun c => !(is_delimiter c)
  if 0 < utf8Len string then some string else none

/-- The IS_NUMBER regex of src/lexing.rs,
an optional minus then either a single zero or a nonzero digit, digits, and
an optional dot-fraction. -/
def numTail (l : List Char) : Bool :=
  match l.dropWhile Char.isDigit with
  | [] => true
  | '.' :: fs => !fs.isEmpty && fs.all Char.isDigit
  | _ => false

/-- IS_NUMBER.is_match of src/lexing.rs. -/
def IS_NUMBER (l : List Char) : Bool :=
  let body := match l with
    | '-' :: rest => rest
    | _ => l
  match body with
  | [] => false
  | '0' :: rest => rest.isEmpty
  | c :: rest => ('1' ≤ c && c ≤ '9') && numTail rest

/-- Pushing a freshly read token in front of the result of scanning the rest
of the buffer (the macro push_token of src/lexing.rs followed by the next
loop iteration); errors pass through. -/
def consToken (t : Token) : Except YpError (List Token) → Except YpError (List Token)
  | .ok ts => .ok (t :: ts)
  | .error e => .error e

/-- The scan loop of src/lexing.rs.  cursor is a char index into buffer;
after a multi-char token the source advances it by the UTF-8 byte length of
the token text (String::len), faithfully reproduced here with utf8Len.  The
fuel argument only bounds the iteration count; buffer.length + 1 is always
enough because each iteration advances the cursor. -/
def scanAux (fuel : Nat) (buffer : List Char) (cursor : Nat) :
    Except YpError (List Token) :=
  match fuel with
  | 0 => .error .overrun
  | fuel + 1 =>
    if cursor = buffer.length then .ok []
    else if buffer.length < cursor then .error .overrun
    else
      match read_whitespace (buffer.drop cursor) with
      | some length => scanAux fuel buffer (cursor + length)
      | none =>
        match read_line_break (buffer.drop cursor) with
        | some length => scanAux fuel buffer (cursor + length)
        | none =>
          match buffer.get? cursor with
          | none => .error .overrun
          | some char =>
            if char = '{' then
              consToken ⟨.OpenCurlyBrace, (cursor, cursor), ['{']⟩
                (scanAux fuel buffer (cursor + 1))
            else if char = '}' then
              consToken ⟨.ClosingCurlyBrace, (cursor, cursor), ['}']⟩
                (scanAux fuel buffer (cursor + 1))
            else if char = ';' then
              consToken ⟨.SemiColon, (cursor, cursor), [';']⟩
                (scanAux fuel buffer (cursor + 1))
            else
              match read_string (buffer.drop cursor) with
              | .error _ =>
                .error (.unterminatedString (from_buffer_index buffer cursor).1
                  (from_buffer_index buffer cursor).2)
              | .ok (some string) =>
                consToken ⟨.String, (cursor, cursor + utf8Len string - 1), string⟩
                  (scanAux fuel buffer (cursor + utf8Len string))
              | .ok none =>
                match read_single_line_comment (buffer.drop cursor) with
                | some comment =>
                  consToken ⟨.Comment, (cursor, cursor + utf8Len comment - 1), comment⟩
                    (scanAux fuel buffer (cursor + utf8Len comment))
                | none =>
                  match read_block_comment (buffer.drop cursor) with
                  | .error _ =>
                    .error (.unterminatedComment (from_buffer_index buffer cursor).1
                      (from_buffer_index buffer cursor).2)
                  | .ok (some comment) =>
                    consToken ⟨.Comment, (cursor, cursor + utf8Len comment - 1), comment⟩
                      (scanAux fuel buffer (cursor + utf8Len comment))
                  | .ok none =>
                    match read_date (buffer.drop cursor) with
                    | some date =>
                      consToken ⟨.Date, (cursor, cursor + utf8Len date - 1), date⟩
                        (scanAux fuel buffer (cursor + utf8Len date))
                    | none =>
                      match read_other (buffer.drop cursor) with
                      | some text =>
                        consToken
                          ⟨if IS_NUMBER text then .Number else .Other,
                            (cursor, cursor + utf8Len text - 1), text⟩
                          (scanAux fuel buffer (cursor + utf8Len text))
                      | none => .error (.failedToParse cursor)

/-- scan of src/lexing.rs: run the loop from char index 0. -/
def scan (text : List Char) : Except YpError (List Token) :=
  scanAux (text.length + 1) text 0

/-- Modelled from the spec: the STATEMENT_KEYWORDS constant of
crate::constants, which src/parsing.rs imports but whose source file is not
part of the repository snapshot.  The spec describes it as a fixed static
list of about 70 grammar keywords such as module, leaf, type and namespace;
this is the statement keyword set of the YANG grammar the crate parses. -/
def STATEMENT_KEYWORDS : List (List Char) :=
  ["action".data, "anydata".data, "anyxml".data, "argument".data,
   "augment".data, "base".data, "belongs-to".data, "bit".data, "case".data,
   "choice".data, "config".data, "contact".data, "container".data,
   "default".data, "description".data, "deviate".data, "deviation".data,
   "enum".data, "error-app-tag".data, "error-message".data,
   "extension".data, "feature".data, "fraction-digits".data,
   "grouping".data, "identity".data, "if-feature".data, "import".data,
   "include".data, "input".data, "key".data, "leaf".data, "leaf-list".data,
   "length".data, "list".data, "mandatory".data, "max-elements".data,
   "min-elements".data, "modifier".data, "module".data, "must".data,
   "namespace".data, "notification".data, "ordered-by".data,
   "organization".data, "output".data, "path".data, "pattern".data,
   "position".data, "prefix".data, "presence".data, "range".data,
   "reference".data, "refine".data, "require-instance".data,
   "revision".data, "revision-date".data, "rpc".data, "status".data,
   "submodule".data, "type".data, "typedef".data, "unique".data,
   "units".data, "uses".data, "value".data, "when".data,
   "yang-version".data, "yin-element".data]

/-- First char class of the IDENTIFIER_PATTERN regex of src/parsing.rs. -/
def isIdentStart (c : Char) : Bool :=
  c.isAlpha || c == '_'

/-- Continuation char class of the IDENTIFIER_PATTERN regex. -/
def isIdentCont (c : Char) : Bool :=
  c.isAlpha || c.isDigit || c == '-' || c == '_' || c == '.'

/-- Whole-string match of the IDENTIFIER_PATTERN regex of src/parsing.rs. -/
def isIdentifier (l : List Char) : Bool :=
  match l with
  | [] => false
  | c :: rest => isIdentStart c && rest.all isIdentCont

/-- Whole-string match of the EXT_KEYWORD_PATTERN regex of src/parsing.rs:
identifier, one colon, identifier.  Neither identifier class contains the
colon, so splitting at the first colon is exactly the regex match. -/
def matchesExtKeyword (l : List Char) : Bool :=
  match l.dropWhile fun c => !(c == ':') with
  | ':' :: after => isIdentifier (l.takeWhile fun c => !(c == ':')) && isIdentifier after
  | _ => false

/-- StatementKeyword of src/parsing.rs. -/
inductive StatementKeyword where
  | Keyword (s : List Char)
  | ExtensionKeyword (s : List Char)
  | Invalid (s : List Char)
  deriving DecidableEq, Repr

/-- The From Token for StatementKeyword impl of src/parsing.rs: membership
in the recognized keyword list, else the extension keyword pattern, else
Invalid. -/
def StatementKeyword.fromToken (t : Token) : StatementKeyword :=
  if STATEMENT_KEYWORDS.contains t.text then .Keyword t.text
  else if matchesExtKeyword t.text then .ExtensionKeyword t.text
  else .Invalid t.text

/-- NodeValue of src/parsing.rs. -/
inductive NodeValue where
  | String (s : List Char)
  | Number (s : List Char)
  | Date (s : List Char)
  | Other (s : List Char)
  deriving DecidableEq, Repr

/-- The From Token for NodeValue impl of src/parsing.rs: the token kind
selects the variant, every kind other than String, Number and Date
(Comment included) becomes Other carrying the raw text. -/
def NodeValue.fromToken (t : Token) : NodeValue :=
  match t.token_type with
  | .String => .String t.text
  | .Number => .Number t.text
  | .Date => .Date t.text
  | _ => .Other t.text

/-- Node of src/parsing.rs (BlockNode and LeafNode structs inlined). -/
inductive Node where
  | BlockNode (keyword : StatementKeyword) (value : Option NodeValue)
      (children : List Node)
  | LeafNode (keyword : StatementKeyword) (value : NodeValue)
  | CommentNode (text : List Char)
  deriving Repr

/-- RootNode of src/parsing.rs. -/
structure RootNode where
  children : List Node
  deriving Repr

/-- ParseState of src/parsing.rs. -/
inductive ParseState where
  | Clean
  | GotKeyword (keyword : StatementKeyword)
  | GotValue (keyword : StatementKeyword) (value : NodeValue)
  deriving Repr

/-- The loop of parse_statements in src/parsing.rs.  The token stream is the
list still to be consumed; the pair returned is the accumulated statements
together with the unconsumed rest of the stream (the state of the shared
iterator after the call).  Recursion into a block shares the stream exactly
as the Rust code shares its iterator.  The fuel only bounds iterations;
tokens.length + 1 always suffices since every step consumes a token. -/
def parseStatementsAux (fuel : Nat) (tokens : List Token) (state : ParseState)
    (statements : List Node) : Except YpError (List Node × List Token) :=
  match fuel with
  | 0 => .error .overrun
  | fuel + 1 =>
    match tokens with
    | [] =>
      match state with
      | .Clean => .ok (statements, [])
      | _ => .error .unexpectedEndOfInput
    | token :: rest =>
      match state with
      | .Clean =>
        match token.token_type with
        | .WhiteSpace => parseStatementsAux fuel rest .Clean statements
        | .LineBreak => parseStatementsAux fuel rest .Clean statements
        | .Comment =>
          parseStatementsAux fuel rest .Clean (statements ++ [.CommentNode token.text])
        | .ClosingCurlyBrace => .ok (statements, rest)
        | .Other =>
          parseStatementsAux fuel rest (.GotKeyword (StatementKeyword.fromToken token))
            statements
        | _ => .error (.unexpectedToken token)
      | .GotKeyword keyword =>
        match token.token_type with
        | .WhiteSpace => parseStatementsAux fuel rest (.GotKeyword keyword) statements
        | .LineBreak => parseStatementsAux fuel rest (.GotKeyword keyword) statements
        | .OpenCurlyBrace =>
          match parseStatementsAux fuel rest .Clean [] with
          | .ok (children, rest2) =>
            parseStatementsAux fuel rest2 .Clean
              (statements ++ [.BlockNode keyword none children])
          | .error e => .error e
        | .SemiColon => .error .expectedValueNotSemicolon
        | _ =>
          parseStatementsAux fuel rest
            (.GotValue keyword (NodeValue.fromToken token)) statements
      | .GotValue keyword value =>
        match token.token_type with
        | .WhiteSpace =>
          parseStatementsAux fuel rest (.GotValue keyword value) statements
        | .LineBreak =>
          parseStatementsAux fuel rest (.GotValue keyword value) statements
        | .OpenCurlyBrace =>
          match parseStatementsAux fuel rest .Clean [] with
          | .ok (children, rest2) =>
            parseStatementsAux fuel rest2 .Clean
              (statements ++ [.BlockNode keyword (some value) children])
          | .error e => .error e
        | .SemiColon =>
          parseStatementsAux fuel rest .Clean
            (statements ++ [.LeafNode keyword value])
        | _ => .error (.expectedSemicolonOrBlock token)

/-- parse_statements of src/parsing.rs, started in the Clean state on a
fresh statement list. -/
def parse_statements (tokens : List Token) : Except YpError (List Node × List Token) :=
  parseStatementsAux (tokens.length + 1) tokens .Clean []

/-- parse of src/parsing.rs: scan, then one top-level parse_statements call;
whatever the iterator still holds when that call returns is dropped. -/
def parse (text : List Char) : Except YpError RootNode :=
  match scan text with
  | .error e => .error e
  | .ok tokens =>
    match parse_statements tokens with
    | .error e => .error e
    | .ok (children, _) => .ok ⟨children⟩

/-- The source slice a span denotes: the chars of the buffer from index
span.1 through span.2 inclusive (spec side, used to state the span
invariant the spec claims). -/
def sliceSpan (buffer : List Char) (span : Nat × Nat) : List Char :=
  (buffer.drop span.1).take (span.2 + 1 - span.1)

/-- Spec side: spans pairwise non-overlapping and strictly increasing in
scan order (each span ends before the next begins). -/
def spansIncreasingB : List Token → Bool
  | t1 :: t2 :: rest =>
    decide (t1.span.2 < t2.span.1) && spansIncreasingB (t2 :: rest)
  | _ => true

/-- Spec side, following the claimed invariant word for word: spans strictly
increasing, every token text the exact source slice of its span, and every
text length equal to end minus start plus one. -/
def claimTokenInvariant (buffer : List Char) (tokens : List Token) : Bool :=
  spansIncreasingB tokens &&
    tokens.all fun t =>
      (sliceSpan buffer t.span == t.text) &&
        (t.text.length == t.span.2 - t.span.1 + 1)

/-- Spec side: erase every char the scanner can skip as whitespace or line
break.  If concatenating token texts and re-inserting the skipped runs
reproduced the buffer, then the buffer and the concatenation would agree
after this erasure; the claim is refuted by refuting that consequence. -/
def stripWs (l : List Char) : List Char :=
  l.filter fun c => !(c == ' ' || c == '\t' || c == '\r' || c == '\n')

/-- Claim C1, counterexample: on the input foo; the tree builder reaches the
GotKeyword state and then reads the semicolon, which is the
expected-a-value-not-a-semicolon error; parse does not succeed and no
LeafNode is produced. -/
theorem parse_foo_semicolon_fails :
    parse "foo;".data = .error .expectedValueNotSemicolon ∧
      (parse "foo;".data).isOk = false :=
  ⟨rfl, rfl⟩

/-- Claim C1, amended: for the input foo bar; at top level, where foo is not
a member of the recognized keyword set, parse succeeds and yields a root
whose single child is a LeafNode with keyword variant Invalid foo (the
statement needs a value before its semicolon; with one present the invalid
keyword is tolerated exactly as claimed). -/
theorem parse_invalid_keyword_leaf :
    parse "foo bar;".data =
      .ok ⟨[.LeafNode (.Invalid "foo".data) (.Other "bar".data)]⟩ :=
  rfl

/-- Claim C8: scanning the six-char input of quote, a, backslash, quote, b,
quote succeeds with exactly one String token whose text is the whole input,
escape uninterpreted, and whose span covers the full quoted run. -/
theorem scan_escaped_quote_string :
    scan "\"a\\\"b\"".data = .ok [⟨.String, (0, 5), "\"a\\\"b\"".data⟩] :=
  rfl

/-- Claim C7: when the token stream is exhausted in the Clean state the
accumulated children are returned successfully, whatever they are — this is
the single end-of-stream rule at every nesting level — and in particular
parse of the input module test followed by an unmatched open brace
succeeds, yielding the block with no children. -/
theorem clean_end_of_stream_ok :
    (∀ (fuel : Nat) (statements : List Node),
      parseStatementsAux (fuel + 1) [] .Clean statements = .ok (statements, [])) ∧
      parse "module test \x7b".data =
        .ok ⟨[.BlockNode (.Keyword "module".data) (some (.Other "test".data)) []]⟩ :=
  ⟨fun _ _ => rfl, rfl⟩

/-- Witness for claim C7 at a concrete fuel and statement list. -/
theorem clean_end_of_stream_ok_witness :
    parseStatementsAux 1 [] .Clean [] = .ok ([], []) :=
  clean_end_of_stream_ok.1 0 []

/-- Claim C9: a CloseBrace read in the Clean state returns the accumulated
children at once together with the untouched rest of the stream, and at the
top level parse then drops that rest: parsing a stray close brace followed
by a whole module succeeds with an empty root. -/
theorem close_brace_returns_and_discards :
    (∀ (fuel : Nat) (t : Token) (rest : List Token) (statements : List Node),
      t.token_type = .ClosingCurlyBrace →
        parseStatementsAux (fuel + 1) (t :: rest) .Clean statements =
          .ok (statements, rest)) ∧
      parse "\x7d module m \x7b \x7d".data = .ok ⟨[]⟩ := by
  constructor
  · intro fuel t rest statements h
    obtain ⟨tt, sp, tx⟩ := t
    cases h
    rfl
  · rfl

/-- Witness for claim C9 at a concrete token and stream. -/
theorem close_brace_returns_and_discards_witness :
    parseStatementsAux 1 [⟨.ClosingCurlyBrace, (0, 0), ['}']⟩] .Clean [] =
      .ok ([], []) :=
  close_brace_returns_and_discards.1 0 ⟨.ClosingCurlyBrace, (0, 0), ['}']⟩ [] [] rfl

/-- Claim C10: in the GotKeyword state a Comment token is taken by the
catch-all transition as the pending statement value, an Other value holding
the raw comment text — it is neither skipped nor turned into a CommentNode —
and the given example parses to a block whose value is that comment text. -/
theorem gotkeyword_comment_becomes_value :
    (∀ (fuel : Nat) (t : Token) (rest : List Token) (statements : List Node)
        (keyword : StatementKeyword),
      t.token_type = .Comment →
        parseStatementsAux (fuel + 1) (t :: rest) (.GotKeyword keyword) statements =
          parseStatementsAux fuel rest (.GotValue keyword (.Other t.text)) statements) ∧
      parse "module /* c */ \x7b \x7d".data =
        .ok ⟨[.BlockNode (.Keyword "module".data) (some (.Other "/* c */".data)) []]⟩ := by
  constructor
  · intro fuel t rest statements keyword h
    obtain ⟨tt, sp, tx⟩ := t
    cases h
    rfl
  · rfl

/-- Witness for claim C10 at a concrete token, keyword and stream. -/
theorem gotkeyword_comment_becomes_value_witness :
    parseStatementsAux 1 [⟨.Comment, (0, 0), ['c']⟩] (.GotKeyword (.Invalid ['k'])) [] =
      parseStatementsAux 0 [] (.GotValue (.Invalid ['k']) (.Other ['c'])) [] :=
  gotkeyword_comment_becomes_value.1 0 ⟨.Comment, (0, 0), ['c']⟩ [] [] (.Invalid ['k']) rfl

/-- Claim C3, counterexample: a String token at statement-start position is
rejected by the Clean state with the unexpected-token error, so parsing a
quoted string in keyword position fails rather than classifying it as a
keyword. -/
theorem parse_string_at_statement_start_fails :
    parse "\"a\";".data =
        .error (.unexpectedToken ⟨.String, (0, 2), "\"a\"".data⟩) ∧
      (parse "\"a\";".data).isOk = false :=
  ⟨rfl, rfl⟩

/-- Claim C3, amended: in the Clean state only an Other token is accepted as
a statement keyword (moving to GotKeyword with the token classified); a
String, Number or Date token at statement-start position makes the builder
fail with the unexpected-token error. -/
theorem clean_state_keyword_transitions :
    ∀ (fuel : Nat) (t : Token) (rest : List Token) (statements : List Node),
      (t.token_type = .Other →
        parseStatementsAux (fuel + 1) (t :: rest) .Clean statements =
          parseStatementsAux fuel rest
            (.GotKeyword (StatementKeyword.fromToken t)) statements) ∧
      (t.token_type = .String ∨ t.token_type = .Number ∨ t.token_type = .Date →
        parseStatementsAux (fuel + 1) (t :: rest) .Clean statements =
          .error (.unexpectedToken t)) := by
  intro fuel t rest statements
  obtain ⟨tt, sp, tx⟩ := t
  constructor
  · intro h
    cases h
    rfl
  · rintro (h | h | h) <;> cases h <;> rfl

/-- Witness for claim C3 at a concrete String token in the Clean state. -/
theorem clean_state_keyword_transitions_witness :
    parseStatementsAux 1 [⟨.String, (0, 0), ['s']⟩] .Clean [] =
      .error (.unexpectedToken ⟨.String, (0, 0), ['s']⟩) :=
  (clean_state_keyword_transitions 0 ⟨.String, (0, 0), ['s']⟩ [] []).2 (Or.inl rfl)

/-- Claim C2, counterexample: the raw run 2024-01-15x is not scanned as one
Other token; the date reader fires on the ten-char prefix, so the scanner
emits a Date token and then a separate Other token for the leftover x. -/
theorem scan_date_prefix_splits_run :
    scan "2024-01-15x".data =
        .ok [⟨.Date, (0, 9), "2024-01-15".data⟩, ⟨.Other, (10, 10), ['x']⟩] ∧
      scan "2024-01-15x".data ≠ .ok [⟨.Other, (0, 10), "2024-01-15x".data⟩] :=
  ⟨rfl, fun h => absurd (Except.ok.inj h) (by decide)⟩

/-- Claim C4, counterexample: an input holding a lone carriage return not
followed by a line feed makes the scanner hit the no-progress error branch —
the carriage return is a delimiter, so no reader consumes it. -/
theorem scan_lone_cr_fails :
    scan "\r".data = .error (.failedToParse 0) :=
  rfl

/-- Claim C5: the code contradicts the claimed span and text invariant.  On
the succeeding input of one e-acute char and a semicolon, the scanner
advances its char-indexed cursor by the UTF-8 byte length of the token text,
producing a single Other token of text e-acute with span (0, 1): the text is
not the source slice of the span (which also holds the semicolon) and its
char count 1 is not end minus start plus one. -/
theorem scan_span_invariant_violation :
    scan "é;".data = .ok [⟨.Other, (0, 1), ['é']⟩] ∧
      claimTokenInvariant "é;".data [⟨.Other, (0, 1), ['é']⟩] = false :=
  ⟨rfl, rfl⟩

/-- Claim C6: the same byte-versus-char slip breaks the round-trip claim.
scan succeeds on the two-char input but the semicolon lands in no token and
in no skipped whitespace run, so no re-insertion of whitespace can rebuild
the buffer from the token texts. -/
theorem scan_roundtrip_violation :
    scan "é;".data = .ok [⟨.Other, (0, 1), ['é']⟩] ∧
      stripWs "é;".data ≠
        stripWs (([⟨.Other, (0, 1), ['é']⟩] : List Token).map Token.text).flatten :=
  ⟨rfl, by decide⟩

theorem consToken_eq_error {t : Token} {r : Except YpError (List Token)}
    {e : YpError} : consToken t r = .error e ↔ r = .error e := by
  cases r <;> simp [consToken]

theorem head?_drop (l : List Char) (n : Nat) : (l.drop n).head? = l.get? n := by
  rw [List.head?_eq_getElem?, List.getElem?_drop, List.get?_eq_getElem?, Nat.add_zero]

theorem utf8Len_pos {l : List Char} (h : l ≠ []) : 0 < utf8Len l := by
  cases l with
  | nil => exact absurd rfl h
  | cons c rest =>
    exact Nat.lt_of_lt_of_le (Char.utf8Size_pos c) (Nat.le_add_right _ _)

theorem utf8Len_ascii {l : List Char} (h : ∀ c ∈ l, c.utf8Size = 1) :
    utf8Len l = l.length := by
  induction l with
  | nil => rfl
  | cons c rest ih =>
    have h1 := h c (List.mem_cons_self c rest)
    have h2 := ih fun x hx => h x (List.mem_cons_of_mem _ hx)
    simp [utf8Len, h1, h2]
    omega

/-- If the scan loop has made no progress through the whitespace, line
break, brace and semicolon cases, the char under the cursor is not a
delimiter — unless it is a carriage return not followed by a line feed —
and read_other therefore consumes at least that char. -/
theorem read_other_progress {buffer : List Char} {cursor : Nat} {char : Char}
    (hch : buffer.get? cursor = some char)
    (hcr : buffer.get? cursor = some '\r' → buffer.get? (cursor + 1) = some '\n')
    (hws : read_whitespace (buffer.drop cursor) = none)
    (hlb : read_line_break (buffer.drop cursor) = none)
    (h1 : ¬char = '{') (h2 : ¬char = '}') (h3 : ¬char = ';') :
    read_other (buffer.drop cursor) ≠ none := by
  have hhead : (buffer.drop cursor).head? = some char := by
    rw [head?_drop]; exact hch
  obtain ⟨tail, htail⟩ : ∃ tail, buffer.drop cursor = char :: tail := by
    cases hd : buffer.drop cursor with
    | nil => rw [hd] at hhead; cases hhead
    | cons x xs =>
      rw [hd] at hhead
      exact ⟨xs, by injection hhead with hx; rw [hx]⟩
  intro hother
  rw [htail] at hother
  unfold read_other at hother
  by_cases hdel : is_delimiter char
  · have hdel' : char = ' ' ∨ char = '\t' ∨ char = '\r' ∨ char = '\n' ∨
        char = ';' ∨ char = '{' ∨ char = '}' := by
      simpa [is_delimiter] using hdel
    rcases hdel' with h | h | h | h | h | h | h
    · rw [htail] at hws
      simp [read_whitespace, List.takeWhile_cons, h] at hws
    · rw [htail] at hws
      simp [read_whitespace, List.takeWhile_cons, h] at hws
    · have hnext : buffer.get? (cursor + 1) = some '\n' := hcr (h ▸ hch)
      have htl : tail.head? = some '\n' := by
        have : tail = buffer.drop (cursor + 1) := by
          have := congrArg List.tail htail
          rw [List.tail_drop] at this
          simpa using this.symm
        rw [this, head?_drop]; exact hnext
      rw [htail] at hlb
      simp [read_line_break, h, htl] at hlb
    · rw [htail] at hlb
      simp [read_line_break, h] at hlb
    · exact h3 h
    · exact h1 h
    · exact h2 h
  · have : (List.takeWhile (fun c => !is_delimiter c) (char :: tail)) =
        char :: List.takeWhile (fun c => !is_delimiter c) tail := by
      simp [List.takeWhile_cons, hdel]
    simp only [this] at hother
    have hpos : 0 < utf8Len (char :: List.takeWhile (fun c => !is_delimiter c) tail) :=
      utf8Len_pos (by simp)
    simp [hpos] at hother

/-- Helper for claim C4: under the no-lone-carriage-return hypothesis, no
iteration of the scan loop, from any cursor and with any fuel, returns the
no-progress failure. -/
theorem scanAux_ne_failedToParse {buffer : List Char}
    (hcr : ∀ i, i < buffer.length → buffer.get? i = some '\r' →
      buffer.get? (i + 1) = some '\n') :
    ∀ (fuel cursor n : Nat),
      scanAux fuel buffer cursor ≠ .error (.failedToParse n) := by
  intro fuel
  induction fuel with
  | zero => intro cursor n h; simp [scanAux] at h
  | succ fuel ih =>
    intro cursor n h
    simp only [scanAux] at h
    by_cases hc1 : cursor = buffer.length
    · simp [hc1] at h
    rw [if_neg hc1] at h
    by_cases hc2 : buffer.length < cursor
    · simp [hc2] at h
    rw [if_neg hc2] at h
    cases hws : read_whitespace (buffer.drop cursor) with
    | some len => simp only [hws] at h; exact ih _ _ h
    | none =>
    simp only [hws] at h
    cases hlb : read_line_break (buffer.drop cursor) with
    | some len => simp only [hlb] at h; exact ih _ _ h
    | none =>
    simp only [hlb] at h
    cases hget : buffer.get? cursor with
    | none => simp only [hget] at h; simp at h
    | some char =>
    simp only [hget] at h
    by_cases hb1 : char = '{'
    · rw [if_pos hb1, consToken_eq_error] at h; exact ih _ _ h
    rw [if_neg hb1] at h
    by_cases hb2 : char = '}'
    · rw [if_pos hb2, consToken_eq_error] at h; exact ih _ _ h
    rw [if_neg hb2] at h
    by_cases hb3 : char = ';'
    · rw [if_pos hb3, consToken_eq_error] at h; exact ih _ _ h
    rw [if_neg hb3] at h
    cases hstr : read_string (buffer.drop cursor) with
    | error e => simp only [hstr] at h; simp at h
    | ok os =>
    cases os with
    | some s => simp only [hstr, consToken_eq_error] at h; exact ih _ _ h
    | none =>
    simp only [hstr] at h
    cases hslc : read_single_line_comment (buffer.drop cursor) with
    | some s => simp only [hslc, consToken_eq_error] at h; exact ih _ _ h
    | none =>
    simp only [hslc] at h
    cases hbc : read_block_comment (buffer.drop cursor) with
    | error e => simp only [hbc] at h; simp at h
    | ok ob =>
    cases ob with
    | some s => simp only [hbc, consToken_eq_error] at h; exact ih _ _ h
    | none =>
    simp only [hbc] at h
    cases hdate : read_date (buffer.drop cursor) with
    | some s => simp only [hdate, consToken_eq_error] at h; exact ih _ _ h
    | none =>
    simp only [hdate] at h
    cases hother : read_other (buffer.drop cursor) with
    | some s => simp only [hother, consToken_eq_error] at h; exact ih _ _ h
    | none =>
      have hcur : cursor < buffer.length := by omega
      exact read_other_progress hget (hcr cursor hcur) hws hlb hb1 hb2 hb3 hother

/-- Claim C4, amended: the no-progress failure branch of scan is reachable,
but only at a carriage return that is not followed by a line feed; on every
input whose carriage returns are all followed by line feeds, scan never
returns that failure (every other char either starts a token, is a
single-char delimiter token, or is skipped as whitespace). -/
theorem scan_no_failure_without_lone_cr :
    ∀ (buffer : List Char),
      (∀ i, i < buffer.length → buffer.get? i = some '\r' →
        buffer.get? (i + 1) = some '\n') →
      ∀ (n : Nat), scan buffer ≠ .error (.failedToParse n) :=
  fun buffer hcr n => scanAux_ne_failedToParse hcr (buffer.length + 1) 0 n

/-- Witness for claim C4 on a concrete input containing a well-formed
carriage-return line-feed pair. -/
theorem scan_no_failure_without_lone_cr_witness :
    scan "a\r\nb".data ≠ .error (.failedToParse 0) :=
  scan_no_failure_without_lone_cr "a\r\nb".data (by decide) 0

/-- Claim C2, amended: an ASCII raw run that does not open a string or a
comment and whose first ten chars do not form the date shape is emitted as
exactly one token, Number when the whole run matches the numeric pattern and
Other otherwise; when the first ten chars do form the date shape the scanner
instead emits a Date token for exactly those ten chars and scans the rest of
the run separately.  In particular 0123 and abc123 are each one Other token,
2024-01-15 is one Date token (while 2024-01-15x splits in two, see the
counterexample). -/
theorem scan_run_single_token :
    (∀ (s : List Char), s ≠ [] →
      (∀ c ∈ s, is_delimiter c = false) →
      (∀ c ∈ s, c.utf8Size = 1) →
      s.head? ≠ some '"' → s.head? ≠ some '\'' →
      s.take 2 ≠ ['/', '/'] → s.take 2 ≠ ['/', '*'] →
      read_date s = none →
      scan s = .ok [⟨if IS_NUMBER s then .Number else .Other, (0, s.length - 1), s⟩]) ∧
    scan "0123".data = .ok [⟨.Other, (0, 3), "0123".data⟩] ∧
    scan "abc123".data = .ok [⟨.Other, (0, 5), "abc123".data⟩] ∧
    scan "2024-01-15".data = .ok [⟨.Date, (0, 9), "2024-01-15".data⟩] := by
  refine ⟨?_, rfl, rfl, rfl⟩
  intro s hne hdelim hascii hq1 hq2 hsl hbc hdate
  obtain ⟨c, rest, rfl⟩ : ∃ c rest, s = c :: rest := by
    cases s with
    | nil => exact absurd rfl hne
    | cons c rest => exact ⟨c, rest, rfl⟩
  have hcdel : is_delimiter c = false := hdelim c (List.mem_cons_self _ _)
  have hmem : ¬(c = ' ' ∨ c = '\t' ∨ c = '\r' ∨ c = '\n' ∨ c = ';' ∨
      c = '{' ∨ c = '}') := by
    simpa [is_delimiter] using hcdel
  push_neg at hmem
  obtain ⟨hsp, htab, hcrr, hnl, hsemi, hob, hcb⟩ := hmem
  have hws : read_whitespace (c :: rest) = none := by
    simp [read_whitespace, List.takeWhile_cons, hsp, htab]
  have hlb : read_line_break (c :: rest) = none := by
    simp [read_line_break, hnl, hcrr]
  have hstr : read_string (c :: rest) = .ok none := by
    have hq1' : ¬(c = '"') := fun hh => hq1 (by simp [hh])
    have hq2' : ¬(c = '\'') := fun hh => hq2 (by simp [hh])
    simp [read_string, hq1', hq2']
  have hslc : read_single_line_comment (c :: rest) = none := by
    unfold read_single_line_comment
    rw [if_neg]
    rintro ⟨hh1, hh2⟩
    simp only [List.head?_cons, Option.some.injEq] at hh1
    cases rest with
    | nil => simp at hh2
    | cons d rest2 =>
      simp only [List.tail_cons, List.head?_cons, Option.some.injEq] at hh2
      exact hsl (by simp [hh1, hh2])
  have hbc' : read_block_comment (c :: rest) = .ok none := by
    unfold read_block_comment
    rw [if_neg]
    rintro ⟨hh1, hh2⟩
    simp only [List.head?_cons, Option.some.injEq] at hh1
    cases rest with
    | nil => simp at hh2
    | cons d rest2 =>
      simp only [List.tail_cons, List.head?_cons, Option.some.injEq] at hh2
      exact hbc (by simp [hh1, hh2])
  have hother : read_other (c :: rest) = some (c :: rest) := by
    have htw : (c :: rest).takeWhile (fun x => !(is_delimiter x)) = c :: rest :=
      List.takeWhile_eq_self_iff.mpr fun x hx => by simp [hdelim x hx]
    simp [read_other, htw, utf8Len_pos (List.cons_ne_nil c rest)]
  have hlen : utf8Len (c :: rest) = (c :: rest).length := utf8Len_ascii hascii
  show scanAux ((c :: rest).length + 1) (c :: rest) 0 = _
  have hl0 : ¬((0 : Nat) = (c :: rest).length) := by simp
  have hl1 : ¬((c :: rest).length < 0) := by omega
  simp only [scanAux, if_neg hl0, if_neg hl1, List.drop_zero, List.get?_cons_zero,
    hws, hlb, if_neg hob, if_neg hcb, if_neg hsemi, hstr, hslc, hbc', hdate, hother]
  rw [hlen]
  simp [consToken, Nat.zero_add]

/-- Witness for claim C2 on the concrete single-token run q7. -/
theorem scan_run_single_token_witness :
    scan "q7".data =
      .ok [⟨if IS_NUMBER "q7".data then .Number else .Other, (0, "q7".data.length - 1),
        "q7".data⟩] :=
  scan_run_single_token.1 "q7".data (by decide) (by decide) (by decide)
    (by decide) (by decide) (by decide) (by decide) (by decide)

end Yangparse
